import Mathlib

/-!
Shallow embedding of the secure-channel program (`src/unnamed/part_000`,
package `main`): the NaCl-box frame codec (`SecureReader.Read`,
`SecureWriter.Write`), the handshake performed by `NewConnection` and
`handleRequest`, and the shared-key precomputation of `NewSecureReader` /
`NewSecureWriter`.

Bytes are modelled as `Nat`, byte streams as `List Nat`.  Go's `error`
values are modelled by `GoError`, distinguishing the `io.EOF` and
`io.ErrUnexpectedEOF` sentinels from `fmt.Errorf` / `errors.New` strings
(Go compares errors by identity: a formatted error wrapping EOF is not
equal to `io.EOF`).
-/

namespace SecureChannel

/-- Go error values: the `io.EOF` sentinel, the `io.ErrUnexpectedEOF`
sentinel, and string errors produced by `errors.New` / `fmt.Errorf`. -/
inductive GoError where
  | eof
  | unexpectedEOF
  | errString (s : String)
deriving DecidableEq

/-- The `Error()` string of a Go error, as used by `fmt.Errorf("...: %s", err)`:
`io.EOF.Error() = "EOF"`, `io.ErrUnexpectedEOF.Error() = "unexpected EOF"`. -/
def GoError.message : GoError → String
  | .eof => "EOF"
  | .unexpectedEOF => "unexpected EOF"
  | .errString s => s

/-- `fmt.Errorf(pre ++ "%s", err)`: a fresh string error wrapping `err`.
The result is never equal to the `io.EOF` sentinel. -/
def wrapMsg (pre : String) (e : GoError) : GoError :=
  .errString (pre ++ e.message)

/-- `io.ReadFull(r, buf)` with `n = len(buf)` over a deterministic byte
stream: consumes `n` bytes when available; returns `io.EOF` when the
stream is empty (and `n > 0`), `io.ErrUnexpectedEOF` on a partial read
(consuming what was available).  `binary.Read` for a fixed-size value
has the same semantics (it reads via `io.ReadFull`). -/
def readFull (n : Nat) (s : List Nat) : Except GoError (List Nat) × List Nat :=
  if n ≤ s.length then (.ok (s.take n), s.drop n)
  else if s.isEmpty then (.error .eof, s)
  else (.error .unexpectedEOF, [])

/-- `binary.Read(r, binary.BigEndian, &msgSize)` for a `uint16`: reads two
bytes and assembles the big-endian value. -/
def readU16BE (s : List Nat) : Except GoError Nat × List Nat :=
  match readFull 2 s with
  | (.error e, s₁) => (.error e, s₁)
  | (.ok bs, s₁) => (.ok (256 * bs.getD 0 0 + bs.getD 1 0), s₁)

/-- `box.Overhead`: the 16-byte Poly1305 authentication tag appended to
every ciphertext. -/
def Overhead : Nat := 16

/-- Modelled from the spec: `box.SealAfterPrecomputation` /
`box.OpenAfterPrecomputation` come from `golang.org/x/crypto/nacl/box`,
which is not part of this repository.  Per spec §4.2, `AuthenticatedEncrypt`
"both encrypts and appends a 16-byte integrity tag", so
`len(ciphertext) = len(plaintext) + 16` and decryption inverts sealing
under the same key and nonce.  The tag is modelled as a 16-byte checksum
of key, nonce and message; the cipher itself is modelled as the identity
(no settled claim depends on confidentiality of the byte transform). -/
def boxTag (key nonce m : List Nat) : List Nat :=
  List.replicate 16 ((key.sum + nonce.sum + m.sum + m.length) % 256)

/-- Modelled from the spec: `box.SealAfterPrecomputation` (see `boxTag`). -/
def sealAfterPrecomputation (key nonce m : List Nat) : List Nat :=
  m ++ boxTag key nonce m

/-- Modelled from the spec: `box.OpenAfterPrecomputation` (see `boxTag`).
Succeeds exactly on ciphertexts in the image of `sealAfterPrecomputation`
for the same key and nonce, returning the sealed plaintext. -/
def openAfterPrecomputation (key nonce c : List Nat) : Option (List Nat) :=
  if 16 ≤ c.length then
    if c = sealAfterPrecomputation key nonce (c.take (c.length - 16)) then
      some (c.take (c.length - 16))
    else none
  else none

/-- Go's `copy(dst, src)`: copies `min (len dst) (len src)` elements of
`src` into the front of `dst`, leaving the rest of `dst` unchanged. -/
def goCopy (dst src : List Nat) : List Nat :=
  src.take (min dst.length src.length) ++ dst.drop (min dst.length src.length)

/-- A plain `r.Read(p)` on a deterministic byte stream: fills the front of
`p` with up to `len p` of the remaining bytes and consumes them.  Returns
the updated buffer and the remaining stream (the Go call site at
`SecureReader.Read` line 71 discards the returned count and error). -/
def goRead (p s : List Nat) : List Nat × List Nat :=
  (s.take (min p.length s.length) ++ p.drop (min p.length s.length),
   s.drop (min p.length s.length))

/-- `SecureReader.Read` (src/unnamed/part_000 lines 45-74) over stream `s`
with caller buffer `p` and precomputed shared key `key`.  Returns
`((count, error?), buffer after the call, remaining stream)`:
1. `binary.Read` of the big-endian `uint16` message size (errors wrapped
   as `"error reading message size: %s"`);
2. `binary.Read` of the 24-byte nonce (wrapped `"error reading nonce: "`);
3. `io.ReadFull` of `msgSize` ciphertext bytes (wrapped
   `"erro reading encrypted message: "`, typo as in the source);
4. `box.OpenAfterPrecomputation`; on failure returns
   `errors.New("could not decrypt box")`;
5. `copy(p, decryptedMsg)` followed by the extra `sr.r.Read(p)` whose
   results are discarded; returns `len(decryptedMsg), nil`. -/
def secureRead (key p s : List Nat) : (Nat × Option GoError) × List Nat × List Nat :=
  match readU16BE s with
  | (.error e, s₁) => ((0, some (wrapMsg "error reading message size: " e)), p, s₁)
  | (.ok msgSize, s₁) =>
    match readFull 24 s₁ with
    | (.error e, s₂) => ((0, some (wrapMsg "error reading nonce: " e)), p, s₂)
    | (.ok nonce, s₂) =>
      match readFull msgSize s₂ with
      | (.error e, s₃) => ((0, some (wrapMsg "erro reading encrypted message: " e)), p, s₃)
      | (.ok msg, s₃) =>
        match openAfterPrecomputation key nonce msg with
        | none => ((0, some (.errString "could not decrypt box")), p, s₃)
        | some decryptedMsg =>
          let p₁ := goCopy p decryptedMsg
          let (p₂, s₄) := goRead p₁ s₃
          ((decryptedMsg.length, none), p₂, s₄)

/-- `SecureWriter.Write` (src/unnamed/part_000 lines 76-99) of plaintext
`p` under shared key `key`; the fresh random 24-byte nonce is passed as a
parameter.  Returns `((count, error?), the bytes written to the stream)`:
`msgSize = uint16(len(p) + box.Overhead)` (the Go `uint16` conversion
reduces mod 2^16), written big-endian, then the nonce, then the sealed
ciphertext; the underlying write count `n = len(ciphertext)` has
`box.Overhead` subtracted only when `n > box.Overhead`.  Writes to the
underlying stream are modelled as succeeding (the success path of a
`bytes.Buffer` / healthy `net.Conn`). -/
def secureWrite (key nonce p : List Nat) : (Nat × Option GoError) × List Nat :=
  let msgSize := (p.length + Overhead) % 65536
  let header := [msgSize / 256, msgSize % 256]
  let encryptedMsg := sealAfterPrecomputation key nonce p
  let n := encryptedMsg.length
  ((if Overhead < n then n - Overhead else n, none), header ++ nonce ++ encryptedMsg)

/-- One I/O operation on the underlying stream, as attempted by the
handshake code: a read of `n` bytes or a write of the given bytes. -/
inductive IOEvent where
  | rd (n : Nat)
  | wr (bytes : List Nat)
deriving DecidableEq

/-- The handshake prologue of `handleRequest` (src/unnamed/part_000 lines
167-181), after the key pair `(sPub, sPriv)` has been generated: the
server first writes its public key `sPub` to the connection, then reads
the client's public key with `io.ReadFull` into a 32-byte buffer.
Returns the result (client public key and unconsumed input, or the
wrapped error) together with the ordered list of stream operations
attempted; writes are modelled as succeeding. -/
def handleRequestHandshake (sPub : List Nat) (s : List Nat) :
    (Except GoError (List Nat) × List Nat) × List IOEvent :=
  match readFull 32 s with
  | (.error e, s₁) =>
      ((.error (wrapMsg "error on reading public key from client: " e), s₁),
       [.wr sPub, .rd 32])
  | (.ok cliPub, s₁) => ((.ok cliPub, s₁), [.wr sPub, .rd 32])

/-- The handshake of `NewConnection` (src/unnamed/part_000 lines 117-139):
the client first reads the server's public key with `io.ReadFull` into a
32-byte buffer, then (after generating its key pair, a local operation)
writes its own public key `cPub`.  On a failed read it returns before
writing anything.  Same conventions as `handleRequestHandshake`. -/
def newConnectionHandshake (cPub : List Nat) (s : List Nat) :
    (Except GoError (List Nat) × List Nat) × List IOEvent :=
  match readFull 32 s with
  | (.error e, s₁) =>
      ((.error (wrapMsg "error reading public key from server: " e), s₁), [.rd 32])
  | (.ok serverPub, s₁) => ((.ok serverPub, s₁), [.rd 32, .wr cPub])

/-- Outcome of one iteration of the echo loop in `handleRequest`
(src/unnamed/part_000 lines 184-198). -/
inductive LoopStep where
  | finished
  | failed (e : GoError)
  | echoed (n : Nat) (buf s : List Nat)
deriving DecidableEq

/-- One iteration of the `handleRequest` echo loop: call `sr.Read(buf)`;
on error, `break` (terminate normally) exactly when the error is the
`io.EOF` sentinel, otherwise return the wrapped error; on success
continue with the reported byte count. -/
def echoStep (key buf s : List Nat) : LoopStep :=
  match secureRead key buf s with
  | ((_, some e), _, _) =>
      if e = GoError.eof then .finished
      else .failed (wrapMsg "error reading message from client: " e)
  | ((rBytes, none), buf₁, s₁) => .echoed rBytes buf₁ s₁

/-- Modelled from the spec: `box.Precompute` of `golang.org/x/crypto/nacl/box`
and `curve25519.ScalarMult` beneath it are not part of this repository.
Per spec §4.1, shared-key derivation is "elliptic-curve scalar
multiplication followed by a fixed key-derivation transform"; the curve
is abstracted by a scalar-multiplication parameter `smul` (scalars and
points both as `Nat`, matching the untyped 32-byte values of the source),
and the HSalsa20 key-derivation transform by the fixed function
`hsalsaDerive`.  `box.Precompute(sharedKey, peersPublicKey, privateKey)`
computes `ScalarMult(privateKey, peersPublicKey)` and then derives. -/
def hsalsaDerive (x : Nat) : Nat := x % 2 ^ 256

/-- Modelled from the spec: `box.Precompute` (see `hsalsaDerive`). -/
def precompute (smul : Nat → Nat → Nat) (peersPublicKey privateKey : Nat) : Nat :=
  hsalsaDerive (smul privateKey peersPublicKey)

/-- The shared key installed by `NewSecureReader(r, priv, pub)`
(src/unnamed/part_000 lines 32-36): `box.Precompute(sr.key, pub, priv)`. -/
def newSecureReaderKey (smul : Nat → Nat → Nat) (priv pub : Nat) : Nat :=
  precompute smul pub priv

/-- The shared key installed by `NewSecureWriter(w, priv, pub)`
(src/unnamed/part_000 lines 39-43): `box.Precompute(sw.key, pub, priv)`. -/
def newSecureWriterKey (smul : Nat → Nat → Nat) (priv pub : Nat) : Nat :=
  precompute smul pub priv

theorem readFull_append_left (a b : List Nat) (n : Nat) (h : a.length = n) :
    readFull n (a ++ b) = (.ok a, b) := by
  subst h
  unfold readFull
  rw [if_pos]
  · simp
  · simp

theorem readFull_exact (a : List Nat) (n : Nat) (h : a.length = n) :
    readFull n a = (.ok a, []) := by
  have := readFull_append_left a [] n h
  simpa using this

theorem readU16BE_header (v : Nat) (rest : List Nat) :
    readU16BE ([v / 256, v % 256] ++ rest) = (.ok v, rest) := by
  unfold readU16BE
  rw [readFull_append_left [v / 256, v % 256] rest 2 rfl]
  simp [Nat.div_add_mod]

theorem seal_length (key nonce m : List Nat) :
    (sealAfterPrecomputation key nonce m).length = m.length + 16 := by
  simp [sealAfterPrecomputation, boxTag]

theorem open_seal (key nonce m : List Nat) :
    openAfterPrecomputation key nonce (sealAfterPrecomputation key nonce m) = some m := by
  have hlen : (sealAfterPrecomputation key nonce m).length = m.length + 16 :=
    seal_length key nonce m
  have htake : (sealAfterPrecomputation key nonce m).take
      ((sealAfterPrecomputation key nonce m).length - 16) = m := by
    rw [hlen]
    simp [sealAfterPrecomputation]
  unfold openAfterPrecomputation
  rw [if_pos (by omega), htake, if_pos rfl]

/-- One secure write followed by one secure read over the resulting
single-frame stream: for any in-range plaintext the read consumes the
whole frame, succeeds, reports the decrypted length, and leaves the
buffer holding the first `min (len p) (len m)` plaintext bytes (the
trailing extra `sr.r.Read(p)` is a no-op on the exhausted stream). -/
theorem secureRead_secureWrite (key nonce m p : List Nat)
    (hn : nonce.length = 24) (hm : m.length ≤ 65519) :
    secureRead key p (secureWrite key nonce m).2 =
      ((m.length, none),
       m.take (min p.length m.length) ++ p.drop (min p.length m.length), []) := by
  have hms : m.length + Overhead < 65536 := by
    simp only [Overhead]
    omega
  have hseal : (sealAfterPrecomputation key nonce m).length = m.length + Overhead := by
    simp [seal_length, Overhead]
  unfold secureWrite
  simp only [Nat.mod_eq_of_lt hms]
  unfold secureRead
  simp only [List.append_assoc, readU16BE_header,
    readFull_append_left nonce (sealAfterPrecomputation key nonce m) 24 hn,
    readFull_exact (sealAfterPrecomputation key nonce m) (m.length + Overhead) hseal,
    open_seal]
  simp [goRead, goCopy]

/-- Claim C1: for every shared key `key`, fresh 24-byte nonce, and plaintext
`m` with `0 ≤ len m ≤ 65519`, writing `m` through `SecureWriter.Write` and
reading the produced frame back through `SecureReader.Read` over the same
key (with a caller buffer that can hold `m`) succeeds and yields exactly
`m`: the reported count is `len m`, the buffer's first `len m` bytes are
`m`, the whole frame is consumed, and the frame's ciphertext is
`len m + 16` bytes — for the empty message just the 16-byte tag. -/
theorem claimC1_roundtrip (key nonce m p : List Nat)
    (hn : nonce.length = 24) (hm : m.length ≤ 65519) (hp : m.length ≤ p.length) :
    (secureRead key p (secureWrite key nonce m).2).1 = (m.length, none) ∧
    ((secureRead key p (secureWrite key nonce m).2).2.1).take m.length = m ∧
    (secureRead key p (secureWrite key nonce m).2).2.2 = [] ∧
    (sealAfterPrecomputation key nonce m).length = m.length + 16 := by
  have h := secureRead_secureWrite key nonce m p hn hm
  have hmin : min p.length m.length = m.length := Nat.min_eq_right hp
  refine ⟨by rw [h], ?_, by rw [h], seal_length key nonce m⟩
  rw [h]
  simp [hmin, List.take_append_eq_append_take, List.take_length]

/-- Witness for C1 at a concrete input: key `[1, 2]`, nonce of 24 threes,
plaintext `[9, 8, 7]`, caller buffer of four bytes. -/
theorem claimC1_roundtrip_witness :
    (secureRead [1, 2] [0, 0, 0, 0]
        (secureWrite [1, 2] (List.replicate 24 3) [9, 8, 7]).2).1 = (3, none) ∧
    ((secureRead [1, 2] [0, 0, 0, 0]
        (secureWrite [1, 2] (List.replicate 24 3) [9, 8, 7]).2).2.1).take 3 = [9, 8, 7] ∧
    (secureRead [1, 2] [0, 0, 0, 0]
        (secureWrite [1, 2] (List.replicate 24 3) [9, 8, 7]).2).2.2 = [] ∧
    (sealAfterPrecomputation [1, 2] (List.replicate 24 3) [9, 8, 7]).length = 3 + 16 :=
  claimC1_roundtrip [1, 2] (List.replicate 24 3) [9, 8, 7] [0, 0, 0, 0]
    (by simp) (by simp) (by simp)

/-- Claim C3 (code-bug evaluation): the claim says a plaintext of length
65520 or more must fail with `MessageTooLargeError` and write nothing, but
`SecureWriter.Write` has no length check: on a 65520-byte plaintext it
reports no error, returns count 65520, writes the whole 65562-byte frame
to the stream, and the `uint16` conversion wraps the length field to
`(65520 + 16) mod 65536 = 0` — the header bytes are `[0, 0]` although the
written ciphertext is 65536 bytes long. -/
theorem claimC3_oversize_eval :
    (secureWrite [0] (List.replicate 24 0) (List.replicate 65520 0)).1.2 = none ∧
    (secureWrite [0] (List.replicate 24 0) (List.replicate 65520 0)).1.1 = 65520 ∧
    (secureWrite [0] (List.replicate 24 0) (List.replicate 65520 0)).2.length
      = 2 + 24 + 65536 ∧
    (secureWrite [0] (List.replicate 24 0) (List.replicate 65520 0)).2.getD 0 0 = 0 ∧
    (secureWrite [0] (List.replicate 24 0) (List.replicate 65520 0)).2.getD 1 0 = 0 := by
  refine ⟨rfl, ?_, ?_, ?_, ?_⟩
  · simp only [secureWrite, seal_length, List.length_replicate]
    norm_num [Overhead]
  · simp only [secureWrite, seal_length, List.length_replicate, List.length_append]
    norm_num [Overhead]
  · simp only [secureWrite, List.length_replicate, List.cons_append, List.nil_append,
      List.getD_cons_zero]
    norm_num [Overhead]
  · simp only [secureWrite, List.length_replicate, List.cons_append, List.nil_append,
      List.getD_cons_succ, List.getD_cons_zero]
    norm_num [Overhead]

/-- Claim C4 (code-bug evaluation): the claim says one read consumes
exactly `2 + 24 + length` bytes and performs no additional read after
decoding succeeds, but line 71 of `SecureReader.Read` performs an extra
`sr.r.Read(p)`.  On a stream holding one valid 43-byte frame (1-byte
plaintext) followed by 3 stray bytes, with a 4-byte caller buffer, the
read succeeds with count 1 yet consumes all 46 bytes and overwrites the
buffer — which ends as `[1, 2, 3, 0]`, the stray stream bytes, instead of
holding the decrypted plaintext `[7]`. -/
theorem claimC4_extra_read_eval :
    ((secureWrite [0] (List.replicate 24 0) [7]).2 ++ [1, 2, 3]).length
      = 2 + 24 + 17 + 3 ∧
    (secureRead [0] [0, 0, 0, 0]
        ((secureWrite [0] (List.replicate 24 0) [7]).2 ++ [1, 2, 3])).1 = (1, none) ∧
    (secureRead [0] [0, 0, 0, 0]
        ((secureWrite [0] (List.replicate 24 0) [7]).2 ++ [1, 2, 3])).2.2 = [] ∧
    (secureRead [0] [0, 0, 0, 0]
        ((secureWrite [0] (List.replicate 24 0) [7]).2 ++ [1, 2, 3])).2.1
      = [1, 2, 3, 0] := by
  decide

/-- Claim C5 (code-bug evaluation): the claim says an exhausted stream at
the frame header yields the distinguished end-of-stream signal and the
echo loop terminates normally on it; but `SecureReader.Read` wraps
`io.EOF` as `fmt.Errorf("error reading message size: %s", err)`, which is
not the `io.EOF` sentinel, so `handleRequest`'s `err == io.EOF` check
fails and the session returns an error instead of breaking normally. -/
theorem claimC5_eof_wrapped_eval :
    (secureRead [0] [0, 0] []).1
      = (0, some (.errString "error reading message size: EOF")) ∧
    GoError.errString "error reading message size: EOF" ≠ GoError.eof ∧
    echoStep [0] [0, 0] []
      = .failed
          (.errString "error reading message from client: error reading message size: EOF") := by
  decide

/-- Claim C6: shared-key derivation as wired by `NewSecureReader` /
`NewSecureWriter` (each side passes its own private key and the peer's
public key, `box.Precompute(key, pub, priv)`) is Diffie-Hellman
symmetric: for any scalar-multiplication primitive `smul` satisfying the
Diffie-Hellman exchange law, and any private keys `cPriv`, `sPriv` with
public keys `smul cPriv G`, `smul sPriv G`, the key the client
precomputes from `(cPriv, sPub)` equals the key the server precomputes
from `(sPriv, cPub)` — and reader and writer keys of one side agree.
Derivation is deterministic by construction (a pure function). -/
theorem claimC6_dh_symmetry (smul : Nat → Nat → Nat) (G cPriv sPriv : Nat)
    (hdh : ∀ a b : Nat, smul a (smul b G) = smul b (smul a G)) :
    newSecureReaderKey smul cPriv (smul sPriv G)
        = newSecureReaderKey smul sPriv (smul cPriv G) ∧
    newSecureWriterKey smul cPriv (smul sPriv G)
        = newSecureWriterKey smul sPriv (smul cPriv G) ∧
    newSecureReaderKey smul cPriv (smul sPriv G)
        = newSecureWriterKey smul cPriv (smul sPriv G) := by
  unfold newSecureReaderKey newSecureWriterKey precompute
  exact ⟨congrArg hsalsaDerive (hdh cPriv sPriv),
         congrArg hsalsaDerive (hdh cPriv sPriv), rfl⟩

/-- Witness for C6: the abstract Diffie-Hellman structure instantiated
with multiplication on `Nat`, base point 2, private keys 5 and 7. -/
theorem claimC6_dh_symmetry_witness :
    newSecureReaderKey (· * ·) 5 (7 * 2) = newSecureReaderKey (· * ·) 7 (5 * 2) ∧
    newSecureWriterKey (· * ·) 5 (7 * 2) = newSecureWriterKey (· * ·) 7 (5 * 2) ∧
    newSecureReaderKey (· * ·) 5 (7 * 2) = newSecureWriterKey (· * ·) 5 (7 * 2) :=
  claimC6_dh_symmetry (· * ·) 2 5 7 (by
    intro a b
    show a * (b * 2) = b * (a * 2)
    ring)

/-- Claim C7 (code-bug evaluation): the claim says a successful secure
write returns exactly `len(p)`, in particular 0 for the empty message;
but for the empty message the underlying write count is 16 (just the
tag), the strict guard `n > box.Overhead` is false, the overhead is not
subtracted, and `Write` returns 16 with no error — not the plaintext
length 0. -/
theorem claimC7_empty_write_eval :
    (secureWrite [0] (List.replicate 24 0) []).1.1 = 16 ∧
    (secureWrite [0] (List.replicate 24 0) []).1.2 = none ∧
    (secureWrite [0] (List.replicate 24 0) []).1.1 ≠ ([] : List Nat).length := by
  decide

/-- Claim C8 (code-bug evaluation): the claim says a decrypted plaintext
longer than the caller's buffer fails with `BufferTooSmallError`; but the
code has no buffer check: on a frame of 2-byte plaintext `[1, 2]` with a
1-byte caller buffer, `Read` reports success `(2, nil)` and silently
copies only the first byte into the buffer. -/
theorem claimC8_no_buffer_check_eval :
    (secureRead [0] [9] (secureWrite [0] (List.replicate 24 0) [1, 2]).2).1
      = (2, none) ∧
    (secureRead [0] [9] (secureWrite [0] (List.replicate 24 0) [1, 2]).2).2.1
      = [1] := by
  decide

/-- Claim C9: the handshake wire order is fixed and inverted between
roles — the server (`handleRequest`) first writes its 32-byte public key
and then reads the client's 32-byte public key with `io.ReadFull`; the
client (`NewConnection`) first reads the server's 32-byte public key with
`io.ReadFull` and then writes its own; each read transfers exactly 32
bytes when the stream provides them. -/
theorem claimC9_handshake_order (sPub cPub sIn cIn : List Nat)
    (hs : sPub.length = 32) (hc : cPub.length = 32)
    (hsi : 32 ≤ sIn.length) (hci : 32 ≤ cIn.length) :
    handleRequestHandshake sPub sIn
        = ((.ok (sIn.take 32), sIn.drop 32), [.wr sPub, .rd 32]) ∧
    newConnectionHandshake cPub cIn
        = ((.ok (cIn.take 32), cIn.drop 32), [.rd 32, .wr cPub]) ∧
    (sIn.take 32).length = 32 ∧ (cIn.take 32).length = 32 ∧
    sPub.length = 32 ∧ cPub.length = 32 := by
  refine ⟨?_, ?_, ?_, ?_, hs, hc⟩ <;>
    simp [handleRequestHandshake, newConnectionHandshake, readFull,
      hsi, hci, List.length_take, Nat.min_eq_left]

/-- Witness for C9: concrete 32-byte keys and input streams of 32 and 40
bytes. -/
theorem claimC9_handshake_order_witness :
    handleRequestHandshake (List.replicate 32 1) (List.replicate 32 3)
        = ((.ok ((List.replicate 32 3).take 32), (List.replicate 32 3).drop 32),
           [.wr (List.replicate 32 1), .rd 32]) ∧
    newConnectionHandshake (List.replicate 32 2) (List.replicate 40 4)
        = ((.ok ((List.replicate 40 4).take 32), (List.replicate 40 4).drop 32),
           [.rd 32, .wr (List.replicate 32 2)]) ∧
    ((List.replicate 32 3).take 32).length = 32 ∧
    ((List.replicate 40 4).take 32).length = 32 ∧
    (List.replicate 32 1).length = 32 ∧ (List.replicate 32 2).length = 32 :=
  claimC9_handshake_order (List.replicate 32 1) (List.replicate 32 2)
    (List.replicate 32 3) (List.replicate 40 4)
    (by simp) (by simp) (by simp) (by simp)

/-- Claim C10 (implicit behavior of the source): when the decrypted
plaintext is longer than the caller's buffer `p`, `SecureReader.Read`
still returns the full decrypted length — strictly greater than
`len p` — as its count, while only the first `len p` plaintext bytes are
copied into `p`; a caller indexing its buffer with the returned count
would run out of range. -/
theorem claimC10_overlong_count (key nonce m p : List Nat)
    (hn : nonce.length = 24) (hm : m.length ≤ 65519) (hp : p.length < m.length) :
    (secureRead key p (secureWrite key nonce m).2).1 = (m.length, none) ∧
    p.length < (secureRead key p (secureWrite key nonce m).2).1.1 ∧
    (secureRead key p (secureWrite key nonce m).2).2.1 = m.take p.length := by
  have h := secureRead_secureWrite key nonce m p hn hm
  have hmin : min p.length m.length = p.length := Nat.min_eq_left (le_of_lt hp)
  refine ⟨by rw [h], by rw [h]; exact hp, ?_⟩
  rw [h]
  simp [hmin, List.drop_length]

/-- Witness for C10: a frame of 3-byte plaintext `[5, 6, 7]` read into a
1-byte buffer — the count 3 exceeds the buffer length 1 and the buffer
ends holding `[5]`. -/
theorem claimC10_overlong_count_witness :
    (secureRead [4] [1] (secureWrite [4] (List.replicate 24 9) [5, 6, 7]).2).1
      = (3, none) ∧
    (1 : Nat) <
      (secureRead [4] [1] (secureWrite [4] (List.replicate 24 9) [5, 6, 7]).2).1.1 ∧
    (secureRead [4] [1] (secureWrite [4] (List.replicate 24 9) [5, 6, 7]).2).2.1
      = [5, 6, 7].take 1 :=
  claimC10_overlong_count [4] (List.replicate 24 9) [5, 6, 7] [1]
    (by simp) (by simp) (by simp)

end SecureChannel
